import Mathlib

/-!
Shallow embedding of the Trader_Pad backend core (session/authorization layer
and audit-logging discipline), translated from `src/backend/auth.py`,
`src/backend/main.py`, `src/backend/crud.py` and `src/backend/database.py`.

Python strings are modelled as `List Char` so that `str.replace` and
`str.startswith` can be given faithful executable definitions; the in-memory
session dict `auth.sessions` is modelled as an association list whose keys are
unique (the dict invariant), with insertion overwriting any existing entry.
Timestamps (`datetime.now()`) are modelled as `Nat` seconds.
-/

/-- Python string, as a list of characters. -/
abbrev Str := List Char

/-- Python `s.replace(pat, repl)`: replaces every (left-to-right,
non-overlapping) occurrence of `pat` in `s` by `repl`.  For the degenerate
empty pattern this definition is the identity; the source only ever calls
`replace` with the non-empty pattern `"Bearer "`. -/
def pyReplace (pat repl : Str) : Str → Str
  | [] => []
  | c :: rest =>
    if h : pat ≠ [] ∧ pat.isPrefixOf (c :: rest) then
      repl ++ pyReplace pat repl ((c :: rest).drop pat.length)
    else
      c :: pyReplace pat repl rest
termination_by s => s.length
decreasing_by
  · simp only [List.length_drop, List.length_cons]
    have hp : 1 ≤ pat.length := by
      cases pat with
      | nil => exact absurd rfl h.1
      | cons a l => simp
    omega
  · simp

/-- The literal scheme prefix `"Bearer "` used by `auth.verify_token`. -/
def bearerPrefix : Str := "Bearer ".toList

/-- One value of the in-memory session dict `auth.sessions`
(`{user_id, username, role, created_at}`). -/
structure SessionData where
  user_id : Nat
  username : Str
  role : Str
  created_at : Nat
deriving Repr, DecidableEq

/-- The session dict, keyed by token. -/
abbrev SessionTable := List (Str × SessionData)

/-- `auth.SESSION_TIMEOUT_HOURS`. -/
def SESSION_TIMEOUT_HOURS : Nat := 24

/-- `auth.create_session(user_id, username, role)`: stores a new session under
the token produced by `generate_token()` (the token is passed in here, as the
generator is a random oracle) and returns the token.  Dict assignment
overwrites any entry already stored under the same key. -/
def create_session (token : Str) (now : Nat) (user_id : Nat)
    (username role : Str) (sessions : SessionTable) : Str × SessionTable :=
  (token, (token, ⟨user_id, username, role, now⟩) ::
    sessions.filter (fun p => decide (p.1 ≠ token)))

/-- `auth.get_session(token)`: `sessions.get(token)`, a pure lookup. -/
def get_session (token : Str) (sessions : SessionTable) : Option SessionData :=
  (sessions.find? (fun p => decide (p.1 = token))).map Prod.snd

/-- `auth.delete_session(token)`: removes the entry if present, returns
whether it existed. -/
def delete_session (token : Str) (sessions : SessionTable) :
    Bool × SessionTable :=
  (sessions.any (fun p => decide (p.1 = token)),
   sessions.filter (fun p => decide (p.1 ≠ token)))

/-- Deleting a list of tokens from the dict one by one
(`for token in tokens_to_delete: del sessions[token]`). -/
def deleteTokens (toks : List Str) (sessions : SessionTable) : SessionTable :=
  toks.foldl (fun tbl tok => tbl.filter (fun p => decide (p.1 ≠ tok))) sessions

/-- `auth.delete_user_sessions(username)`: collects the tokens whose session
has the given username, deletes each, and returns how many were deleted. -/
def delete_user_sessions (username : Str) (sessions : SessionTable) :
    Nat × SessionTable :=
  let tokens_to_delete :=
    (sessions.filter (fun p => decide (p.2.username = username))).map Prod.fst
  (tokens_to_delete.length, deleteTokens tokens_to_delete sessions)

/-- `auth.cleanup_old_sessions()`: removes the sessions strictly older than
`SESSION_TIMEOUT_HOURS` (the `datetime` comparison
`now - created_at > timedelta(hours=24)` is modelled in seconds, with
truncated subtraction matching the fact that a non-positive `timedelta` is
never greater than a positive one). -/
def cleanup_old_sessions (now : Nat) (sessions : SessionTable) :
    Nat × SessionTable :=
  let tokens_to_delete :=
    (sessions.filter
      (fun p => decide (now - p.2.created_at > SESSION_TIMEOUT_HOURS * 3600))).map Prod.fst
  (tokens_to_delete.length, deleteTokens tokens_to_delete sessions)

/-- The error responses raised by the handlers (via `HTTPException`). -/
inductive ApiError
  | unauthenticated          -- 401 "Authentication required"
  | malformedCredentials     -- 401 "Invalid authorization header format"
  | invalidOrExpiredSession  -- 401 "Invalid or expired session"
  | forbidden                -- 403 "Admin access required"
  | notFound                 -- 404
  | badRequest               -- 400 "Cannot delete admin user"
  | serverError              -- 500
deriving Repr, DecidableEq

/-- The HTTP status code attached to each error. -/
def statusCode : ApiError → Nat
  | .unauthenticated => 401
  | .malformedCredentials => 401
  | .invalidOrExpiredSession => 401
  | .forbidden => 403
  | .notFound => 404
  | .badRequest => 400
  | .serverError => 500

/-- `auth.verify_token(authorization)`.  Note that Python's
`if not authorization` is taken for a missing header *and* for an empty
header string, both of which raise 401 "Authentication required". -/
def verify_token (authorization : Option Str) (sessions : SessionTable) :
    Except ApiError SessionData :=
  match authorization with
  | none => .error .unauthenticated
  | some h =>
    if h = [] then .error .unauthenticated
    else if bearerPrefix.isPrefixOf h then
      match get_session (pyReplace bearerPrefix [] h) sessions with
      | none => .error .invalidOrExpiredSession
      | some s => .ok s
    else .error .malformedCredentials

/-- `auth.verify_admin(authorization)`: `verify_token`, then a role gate. -/
def verify_admin (authorization : Option Str) (sessions : SessionTable) :
    Except ApiError SessionData :=
  match verify_token authorization sessions with
  | .error e => .error e
  | .ok s => if s.role = "admin".toList then .ok s else .error .forbidden

/-- `main.logout`: verifies the token, then deletes the session stored under
`authorization.replace("Bearer ", "")`.  The `none` branch after a successful
`verify_token` is unreachable (`verify_token` rejects a missing header). -/
def logout (authorization : Option Str) (sessions : SessionTable) :
    Except ApiError Unit × SessionTable :=
  match verify_token authorization sessions with
  | .error e => (.error e, sessions)
  | .ok _ =>
    match authorization with
    | none => (.error .unauthenticated, sessions)
    | some h =>
      (.ok (), (delete_session (pyReplace bearerPrefix [] h) sessions).2)

/-!
## Trade entries and the audit log

The `trader_entries` business columns, as listed in the `INSERT`/`UPDATE`
statements of `crud.py` and mirrored by the `trader_entries_logs` columns in
`main.download_logs`.  Only the shape and equality of column values matter to
the audited invariants, so scalar column values are modelled as nullable
strings. -/

/-- A nullable scalar column value. -/
abbrev DbValue := Option Str

/-- One `trader_entries` row (business columns of the `UPDATE` in
`crud.update_trade_entry`). -/
structure TradeRow where
  username : Str
  trade_date : DbValue
  strategy : DbValue
  code : DbValue
  exchange : DbValue
  commodity : DbValue
  expiry : DbValue
  contract_type : DbValue
  strike_price : DbValue
  option_type : DbValue
  buy_qty : DbValue
  buy_avg : DbValue
  sell_qty : DbValue
  sell_avg : DbValue
  client_code : DbValue
  broker : DbValue
  team_name : DbValue
  status : DbValue
  remark : DbValue
  tag : DbValue
deriving Repr, DecidableEq

/-- One `trader_entries_logs` row.  `entry_data` is `Option` because
`main.update_trade_entry` passes the re-read row straight through, and per the
spec the logger stores missing fields as null rather than erroring. -/
structure LogEntry where
  entry_id : Nat
  operation_type : Str
  log_tag : Str
  entry_data : Option TradeRow
  changed_by : Str
  changed_at : Nat
deriving Repr, DecidableEq

/-- The database state visible to the trade handlers. -/
structure DbState where
  trades : List (Nat × TradeRow)
  logs : List LogEntry
deriving Repr, DecidableEq

/-- `crud.get_trade_entry_by_id(conn, entry_id)`. -/
def get_trade_entry_by_id (st : DbState) (entry_id : Nat) : Option TradeRow :=
  (st.trades.find? (fun p => decide (p.1 = entry_id))).map Prod.snd

/-- `crud.update_trade_entry(conn, entry_id, entry, username)`: sets every
business column from the payload, with the `username` column set to the acting
user, on the row with the given id; returns `rowcount > 0`. -/
def crud_update_trade_entry (st : DbState) (entry_id : Nat) (entry : TradeRow)
    (username : Str) : Bool × DbState :=
  (st.trades.any (fun p => decide (p.1 = entry_id)),
   { st with trades := st.trades.map (fun p =>
      if p.1 = entry_id then (p.1, { entry with username := username }) else p) })

/-- `crud.delete_trade_entry(conn, entry_id)`: returns `rowcount > 0`. -/
def crud_delete_trade_entry (st : DbState) (entry_id : Nat) : Bool × DbState :=
  (st.trades.any (fun p => decide (p.1 = entry_id)),
   { st with trades := st.trades.filter (fun p => decide (p.1 ≠ entry_id)) })

/-- Modelled from the spec: `crud.create_log_entry` is called by the handlers
in `main.py` but its definition is not among the provided sources (`crud.py`
stops at user CRUD).  Per §4.2 RecordSnapshot it "writes one append-only
record" carrying the entry id, operation kind, snapshot tag, the row data
verbatim (missing fields as null), the acting username and a change
timestamp, and "no existing row is ever touched". -/
def create_log_entry (st : DbState) (entry_id : Nat)
    (operation_type log_tag : Str) (entry_data : Option TradeRow)
    (changed_by : Str) (now : Nat) : DbState :=
  { st with logs :=
      st.logs ++ [⟨entry_id, operation_type, log_tag, entry_data, changed_by, now⟩] }

/-- The storage writes an audited handler performs inside its transaction;
each one may fail at the storage layer (`database.get_db` then rolls the whole
transaction back and re-raises, and the handler answers 500). -/
inductive WriteStep
  | logBefore | updateRow | logAfter | logDeleted | deleteRow
deriving Repr, DecidableEq

/-- `main.update_trade_entry` (PUT `/api/trade-entries/{entry_id}`), with the
transaction semantics of `database.get_db`: the handler's body runs on a
working state, any exception rolls the visible state back to the initial one,
and only a completed body is committed.  `wf` is the storage oracle: `wf step
= false` means that write raises a storage error. -/
def update_trade_entry_handler (authorization : Option Str)
    (sessions : SessionTable) (entry_id : Nat) (entry : TradeRow) (now : Nat)
    (wf : WriteStep → Bool) (st : DbState) :
    Except ApiError TradeRow × DbState :=
  match verify_token authorization sessions with
  | .error e => (.error e, st)
  | .ok session =>
    match get_trade_entry_by_id st entry_id with
    | none => (.error .notFound, st)
    | some old_entry =>
      if wf .logBefore = false then (.error .serverError, st)
      else
        let st1 := create_log_entry st entry_id "UPDATE".toList "before".toList
          (some old_entry) session.username now
        if wf .updateRow = false then (.error .serverError, st)
        else
          let (success, st2) :=
            crud_update_trade_entry st1 entry_id entry session.username
          if success = false then (.error .notFound, st)
          else
            let updated_entry := get_trade_entry_by_id st2 entry_id
            if wf .logAfter = false then (.error .serverError, st)
            else
              let st3 := create_log_entry st2 entry_id "UPDATE".toList
                "after".toList updated_entry session.username now
              match updated_entry with
              | none => (.error .serverError, st)   -- response model rejects None
              | some u => (.ok u, st3)

/-- `main.delete_trade_entry` (DELETE `/api/trade-entries/{entry_id}`), with
the same transaction semantics and storage oracle. -/
def delete_trade_entry_handler (authorization : Option Str)
    (sessions : SessionTable) (entry_id : Nat) (now : Nat)
    (wf : WriteStep → Bool) (st : DbState) :
    Except ApiError Nat × DbState :=
  match verify_token authorization sessions with
  | .error e => (.error e, st)
  | .ok session =>
    match get_trade_entry_by_id st entry_id with
    | none => (.error .notFound, st)
    | some deleted_entry =>
      if wf .logDeleted = false then (.error .serverError, st)
      else
        let st1 := create_log_entry st entry_id "DELETE".toList
          "deleted".toList (some deleted_entry) session.username now
        if wf .deleteRow = false then (.error .serverError, st)
        else
          let (success, st2) := crud_delete_trade_entry st1 entry_id
          if success = false then (.error .notFound, st)
          else (.ok entry_id, st2)

/-!
## Users and the admin delete-user endpoint
-/

/-- One `users` row (the columns `main.delete_user` consults). -/
structure UserRow where
  username : Str
  role : Str
deriving Repr, DecidableEq

/-- The `users` table, keyed by id. -/
abbrev UserTable := List (Nat × UserRow)

/-- `crud.get_user_by_id(conn, user_id)`. -/
def get_user_by_id (users : UserTable) (user_id : Nat) : Option UserRow :=
  (users.find? (fun p => decide (p.1 = user_id))).map Prod.snd

/-- `crud.delete_user(conn, user_id)`: returns `rowcount > 0`.  `dbFail`
models a storage-level failure of the `DELETE` (the row is then untouched and
the reported rowcount is 0). -/
def crud_delete_user (dbFail : Bool) (users : UserTable) (user_id : Nat) :
    Bool × UserTable :=
  if dbFail then (false, users)
  else (users.any (fun p => decide (p.1 = user_id)),
    users.filter (fun p => decide (p.1 ≠ user_id)))

/-- `main.delete_user` (DELETE `/api/users/{user_id}`): admin gate, 404 on a
missing target, 400 on an admin target, then `auth.delete_user_sessions` (an
in-memory write, outside the database transaction), then the row `DELETE`.
`success == False` raises a 500 inside the `with get_db()` block, which rolls
the database back — but not the session table. -/
def delete_user_handler (authorization : Option Str) (sessions : SessionTable)
    (user_id : Nat) (dbFail : Bool) (users : UserTable) :
    Except ApiError Nat × SessionTable × UserTable :=
  match verify_admin authorization sessions with
  | .error e => (.error e, sessions, users)
  | .ok _ =>
    match get_user_by_id users user_id with
    | none => (.error .notFound, sessions, users)
    | some user =>
      if user.role = "admin".toList then (.error .badRequest, sessions, users)
      else
        let sessions1 := (delete_user_sessions user.username sessions).2
        let (success, users1) := crud_delete_user dbFail users user_id
        if success then (.ok user_id, sessions1, users1)
        else (.error .serverError, sessions1, users)

/-!
## The session lifecycle as a state machine (for the temporal claim)
-/

/-- The operations that touch the session table. -/
inductive SessionOp
  | create (token : Str) (now : Nat) (user_id : Nat) (username role : Str)
  | get (token : Str)
  | delete (token : Str)
  | deleteUser (username : Str)
  | sweep (now : Nat)
deriving Repr, DecidableEq

/-- The effect of each operation on the session table. -/
def applyOp : SessionOp → SessionTable → SessionTable
  | .create token now uid u r, tbl => (create_session token now uid u r tbl).2
  | .get _, tbl => tbl
  | .delete token, tbl => (delete_session token tbl).2
  | .deleteUser u, tbl => (delete_user_sessions u tbl).2
  | .sweep now, tbl => (cleanup_old_sessions now tbl).2

/-!
## Lemmas about `pyReplace` (Python `str.replace`)
-/

theorem pyReplace_nil (pat repl : Str) : pyReplace pat repl [] = [] := by
  simp [pyReplace]

theorem pyReplace_cons_pos (pat repl : Str) (c : Char) (rest : Str)
    (h1 : pat ≠ []) (h2 : pat.isPrefixOf (c :: rest)) :
    pyReplace pat repl (c :: rest) =
      repl ++ pyReplace pat repl ((c :: rest).drop pat.length) := by
  rw [pyReplace]
  simp [h1, h2]

theorem pyReplace_cons_neg (pat repl : Str) (c : Char) (rest : Str)
    (h : ¬ (pat ≠ [] ∧ pat.isPrefixOf (c :: rest) = true)) :
    pyReplace pat repl (c :: rest) = c :: pyReplace pat repl rest := by
  rw [pyReplace]
  simp only [dif_neg h]

/-- A string without an occurrence of the pattern is left unchanged. -/
theorem pyReplace_eq_self_of_no_occurrence (pat repl s : Str) (h : ¬ pat <:+: s) :
    pyReplace pat repl s = s := by
  induction s using pyReplace.induct pat repl with
  | case1 => exact pyReplace_nil pat repl
  | case2 c rest hcond ih =>
    exact absurd (List.isPrefixOf_iff_prefix.mp hcond.2).isInfix h
  | case3 c rest hcond ih =>
    rw [pyReplace_cons_neg pat repl c rest hcond]
    rw [ih (fun hi => h (List.infix_cons hi))]

theorem pyReplace_del_length_le (pat s : Str) :
    (pyReplace pat [] s).length ≤ s.length := by
  induction s using pyReplace.induct pat [] with
  | case1 => simp [pyReplace_nil]
  | case2 c rest hcond ih =>
    rw [pyReplace_cons_pos pat [] c rest hcond.1 hcond.2, List.nil_append]
    calc (pyReplace pat [] ((c :: rest).drop pat.length)).length
        ≤ ((c :: rest).drop pat.length).length := ih
      _ ≤ (c :: rest).length := by simp
  | case3 c rest hcond ih =>
    rw [pyReplace_cons_neg pat [] c rest hcond]
    simpa using ih

/-- Replacing strips a leading occurrence of the pattern. -/
theorem pyReplace_strip_leading (pat repl s : Str) (hp : pat ≠ []) :
    pyReplace pat repl (pat ++ s) = repl ++ pyReplace pat repl s := by
  cases hpat : pat with
  | nil => exact absurd hpat hp
  | cons a p =>
    have hpre : pat.isPrefixOf (pat ++ s) :=
      List.isPrefixOf_iff_prefix.mpr (List.prefix_append pat s)
    have := pyReplace_cons_pos (a :: p) repl a (p ++ s) (by simp) (by simpa using hpre)
    simp only [List.drop_left] at this
    simpa using this

/-- Deleting a pattern that does occur strictly shortens the string. -/
theorem pyReplace_del_length_lt (pat s : Str) (hp : pat ≠ [])
    (hi : pat <:+: s) : (pyReplace pat [] s).length < s.length := by
  induction s using pyReplace.induct pat [] with
  | case1 => rw [List.infix_nil] at hi; exact absurd hi hp
  | case2 c rest hcond ih =>
    rw [pyReplace_cons_pos pat [] c rest hcond.1 hcond.2, List.nil_append]
    have h1 := pyReplace_del_length_le pat ((c :: rest).drop pat.length)
    have h2 : 1 ≤ pat.length := by
      cases pat with
      | nil => exact absurd rfl hp
      | cons a l => simp
    simp only [List.length_drop, List.length_cons] at h1 ⊢
    omega
  | case3 c rest hcond ih =>
    rw [pyReplace_cons_neg pat [] c rest hcond]
    have hrest : pat <:+: rest := by
      rcases List.infix_cons_iff.mp hi with hpre | hinf
      · exact absurd (And.intro hp (List.isPrefixOf_iff_prefix.mpr hpre)) hcond
      · exact hinf
    simpa using ih hrest

/-- Hence a string containing the pattern is changed by deleting it. -/
theorem pyReplace_del_ne_of_occurs (pat s : Str) (hp : pat ≠ [])
    (hi : pat <:+: s) : pyReplace pat [] s ≠ s := by
  intro he
  have := pyReplace_del_length_lt pat s hp hi
  rw [he] at this
  exact lt_irrefl _ this

/-!
## Association-table lemmas (the dict invariant: keys are unique)
-/

/-- Entries of a table with `Nodup` keys are determined by their key. -/
theorem eq_of_mem_of_nodup_keys {α β : Type} (l : List (α × β))
    (hnd : (l.map Prod.fst).Nodup) {p q : α × β}
    (hp : p ∈ l) (hq : q ∈ l) (h : p.1 = q.1) : p = q := by
  induction l with
  | nil => cases hp
  | cons a l ih =>
    rw [List.map_cons, List.nodup_cons] at hnd
    rcases List.mem_cons.mp hp with rfl | hp' <;>
      rcases List.mem_cons.mp hq with rfl | hq'
    · rfl
    · exact absurd (h ▸ List.mem_map_of_mem Prod.fst hq') hnd.1
    · exact absurd (h ▸ List.mem_map_of_mem Prod.fst hp') hnd.1
    · exact ih hnd.2 hp' hq'

/-- Deleting tokens one by one is filtering the table by key. -/
theorem deleteTokens_eq_filter (toks : List Str) (tbl : SessionTable) :
    deleteTokens toks tbl = tbl.filter (fun p => decide (p.1 ∉ toks)) := by
  induction toks generalizing tbl with
  | nil => simp [deleteTokens]
  | cons t ts ih =>
    simp only [deleteTokens, List.foldl_cons] at ih ⊢
    rw [ih, List.filter_filter]
    apply List.filter_congr
    intro p _
    simp [List.mem_cons, not_or, Bool.and_comm]

/-- With unique keys, key membership in a filtered table is the predicate. -/
theorem mem_filter_keys_iff (q : Str × SessionData → Bool) (tbl : SessionTable)
    (hnd : (tbl.map Prod.fst).Nodup) {p : Str × SessionData} (hp : p ∈ tbl) :
    p.1 ∈ (tbl.filter q).map Prod.fst ↔ q p := by
  constructor
  · intro hm
    rcases List.mem_map.mp hm with ⟨r, hr, hr1⟩
    have hrf := List.mem_filter.mp hr
    have : r = p := eq_of_mem_of_nodup_keys tbl hnd hrf.1 hp hr1
    rw [← this]
    exact hrf.2
  · intro hq
    exact List.mem_map.mpr ⟨p, List.mem_filter.mpr ⟨hp, hq⟩, rfl⟩

/-- Collect-the-matching-tokens-then-delete-each equals filtering by the
complement of the predicate, provided the keys are unique. -/
theorem deleteTokens_filter_keys (q : Str × SessionData → Bool)
    (tbl : SessionTable) (hnd : (tbl.map Prod.fst).Nodup) :
    deleteTokens ((tbl.filter q).map Prod.fst) tbl =
      tbl.filter (fun p => ! q p) := by
  rw [deleteTokens_eq_filter]
  apply List.filter_congr
  intro p hp
  have hiff := mem_filter_keys_iff q tbl hnd hp
  cases hqp : q p with
  | true => simp [hiff, hqp]
  | false => simp [hiff, hqp]

/-- With unique keys, a successful lookup is exactly membership. -/
theorem get_session_eq_some_iff (tok : Str) (s : SessionData)
    (tbl : SessionTable) (hnd : (tbl.map Prod.fst).Nodup) :
    get_session tok tbl = some s ↔ (tok, s) ∈ tbl := by
  constructor
  · intro h
    unfold get_session at h
    cases hf : tbl.find? (fun p => decide (p.1 = tok)) with
    | none => rw [hf] at h; cases h
    | some r =>
      rw [hf] at h
      have hr := List.mem_of_find?_eq_some hf
      have hkey := List.find?_some hf
      simp only [Option.map_some', Option.some_inj] at h
      simp only [decide_eq_true_eq] at hkey
      have : r = (tok, s) := by
        cases r
        simp only [Prod.mk.injEq]
        exact ⟨hkey, h⟩
      rwa [this] at hr
  · intro hm
    unfold get_session
    cases hf : tbl.find? (fun p => decide (p.1 = tok)) with
    | none =>
      rw [List.find?_eq_none] at hf
      have := hf _ hm
      simp at this
    | some r =>
      have hr := List.mem_of_find?_eq_some hf
      have hkey := List.find?_some hf
      simp only [decide_eq_true_eq] at hkey
      have : r = (tok, s) := eq_of_mem_of_nodup_keys tbl hnd hr hm hkey
      simp [this]

/-- Looking a stored session up in a filtered table, with unique keys. -/
theorem get_session_filter (q : Str × SessionData → Bool) (tok : Str)
    (s : SessionData) (tbl : SessionTable) (hnd : (tbl.map Prod.fst).Nodup)
    (h : get_session tok tbl = some s) :
    get_session tok (tbl.filter q) =
      if q (tok, s) = true then some s else none := by
  have hmem : (tok, s) ∈ tbl := (get_session_eq_some_iff tok s tbl hnd).mp h
  have hndf : ((tbl.filter q).map Prod.fst).Nodup :=
    List.Nodup.sublist ((List.filter_sublist tbl).map Prod.fst) hnd
  by_cases hq : q (tok, s) = true
  · rw [if_pos hq]
    exact (get_session_eq_some_iff tok s _ hndf).mpr
      (List.mem_filter.mpr ⟨hmem, hq⟩)
  · rw [if_neg hq]
    unfold get_session
    rw [List.find?_eq_none.mpr]
    · rfl
    · intro x hx hkey
      have hxt := List.mem_filter.mp hx
      simp only [decide_eq_true_eq] at hkey
      have : x = (tok, s) := eq_of_mem_of_nodup_keys tbl hnd hxt.1 hmem hkey
      rw [this] at hxt
      exact hq hxt.2

/-!
## Claims about the authentication gate
-/

/-- One-step unfolding of `verify_token` on a present header. -/
theorem verify_token_some (h : Str) (sessions : SessionTable) :
    verify_token (some h) sessions =
      if h = [] then .error .unauthenticated
      else if bearerPrefix.isPrefixOf h then
        match get_session (pyReplace bearerPrefix [] h) sessions with
        | none => .error .invalidOrExpiredSession
        | some s => .ok s
      else .error .malformedCredentials := rfl

/-- C3 counterexample: the empty header value is present and does not start
with "Bearer ", yet `verify_token` raises 401 "Authentication required"
(`unauthenticated`), not "Invalid authorization header format"
(`malformedCredentials`), because Python's `if not authorization` is also
taken for the empty string. -/
theorem c3_empty_header_counterexample :
    bearerPrefix.isPrefixOf ([] : Str) = false ∧
    verify_token (some []) [] = .error .unauthenticated ∧
    ApiError.unauthenticated ≠ ApiError.malformedCredentials := by
  refine ⟨by decide, rfl, by decide⟩

/-- C3 (amended): for every raw Authorization header value, an absent or
EMPTY header fails with `unauthenticated` (401); a nonempty header that does
not start with "Bearer " fails with `malformedCredentials` (401); a nonempty
prefixed header whose extracted token does not resolve to a stored session
fails with `invalidOrExpiredSession` (401); otherwise the stored session is
returned. -/
theorem c3_auth_taxonomy (sessions : SessionTable) :
    (verify_token none sessions = .error .unauthenticated ∧
     verify_token (some []) sessions = .error .unauthenticated ∧
     statusCode .unauthenticated = 401) ∧
    (∀ h : Str, h ≠ [] → bearerPrefix.isPrefixOf h = false →
      verify_token (some h) sessions = .error .malformedCredentials ∧
      statusCode .malformedCredentials = 401) ∧
    (∀ h : Str, h ≠ [] → bearerPrefix.isPrefixOf h = true →
      get_session (pyReplace bearerPrefix [] h) sessions = none →
      verify_token (some h) sessions = .error .invalidOrExpiredSession ∧
      statusCode .invalidOrExpiredSession = 401) ∧
    (∀ (h : Str) (s : SessionData), h ≠ [] → bearerPrefix.isPrefixOf h = true →
      get_session (pyReplace bearerPrefix [] h) sessions = some s →
      verify_token (some h) sessions = .ok s) := by
  refine ⟨⟨rfl, rfl, rfl⟩, ?_, ?_, ?_⟩
  · intro h hne hpre
    rw [verify_token_some, if_neg hne, if_neg (by simp [hpre])]
    exact ⟨rfl, rfl⟩
  · intro h hne hpre hnone
    rw [verify_token_some, if_neg hne, if_pos (by simp [hpre]), hnone]
    exact ⟨rfl, rfl⟩
  · intro h s hne hpre hsome
    rw [verify_token_some, if_neg hne, if_pos (by simp [hpre]), hsome]

/-- Witness for the amended C3, at concrete inputs for all four cases. -/
theorem c3_auth_taxonomy_witness :
    verify_token none [] = .error .unauthenticated ∧
    verify_token (some "Token x".toList) [] = .error .malformedCredentials ∧
    verify_token (some "Bearer x".toList) [] = .error .invalidOrExpiredSession ∧
    verify_token (some "Bearer t".toList)
      [("t".toList, ⟨1, "u".toList, "user".toList, 0⟩)] =
      .ok ⟨1, "u".toList, "user".toList, 0⟩ := by
  have hx : pyReplace bearerPrefix [] ("Bearer x".toList) = "x".toList := by
    have := pyReplace_strip_leading bearerPrefix [] ("x".toList) (by decide)
    have hel : "Bearer x".toList = bearerPrefix ++ "x".toList := by decide
    rw [hel, this]
    exact pyReplace_eq_self_of_no_occurrence _ _ _ (by decide)
  have ht : pyReplace bearerPrefix [] ("Bearer t".toList) = "t".toList := by
    have := pyReplace_strip_leading bearerPrefix [] ("t".toList) (by decide)
    have hel : "Bearer t".toList = bearerPrefix ++ "t".toList := by decide
    rw [hel, this]
    exact pyReplace_eq_self_of_no_occurrence _ _ _ (by decide)
  refine ⟨(c3_auth_taxonomy []).1.1, ?_, ?_, ?_⟩
  · exact ((c3_auth_taxonomy []).2.1 _ (by decide) (by decide)).1
  · exact ((c3_auth_taxonomy []).2.2.1 _ (by decide) (by decide)
      (by rw [hx]; rfl)).1
  · exact (c3_auth_taxonomy _).2.2.2 _ _ (by decide) (by decide)
      (by rw [ht]; rfl)

/-- C4: for every header that authenticates to a session, the admin gate
fails with `forbidden` (403) when the session's role is not "admin", and
returns the authenticated session when the role is "admin". -/
theorem c4_admin_gate (authorization : Option Str) (sessions : SessionTable)
    (s : SessionData) (hok : verify_token authorization sessions = .ok s) :
    (s.role ≠ "admin".toList →
      verify_admin authorization sessions = .error .forbidden ∧
      statusCode .forbidden = 403) ∧
    (s.role = "admin".toList →
      verify_admin authorization sessions = .ok s) := by
  have hv : verify_admin authorization sessions =
      if s.role = "admin".toList then .ok s else .error .forbidden := by
    unfold verify_admin
    rw [hok]
  constructor
  · intro hr
    rw [hv, if_neg hr]
    exact ⟨rfl, rfl⟩
  · intro hr
    rw [hv, if_pos hr]

/-- Witness for C4: a "user" session is refused, an "admin" one admitted. -/
theorem c4_admin_gate_witness :
    verify_admin (some "Bearer t".toList)
      [("t".toList, ⟨1, "u".toList, "user".toList, 0⟩)] =
      .error .forbidden ∧
    verify_admin (some "Bearer a".toList)
      [("a".toList, ⟨2, "boss".toList, "admin".toList, 0⟩)] =
      .ok ⟨2, "boss".toList, "admin".toList, 0⟩ := by
  have ht : pyReplace bearerPrefix [] ("Bearer t".toList) = "t".toList := by
    have := pyReplace_strip_leading bearerPrefix [] ("t".toList) (by decide)
    have hel : "Bearer t".toList = bearerPrefix ++ "t".toList := by decide
    rw [hel, this]
    exact pyReplace_eq_self_of_no_occurrence _ _ _ (by decide)
  have ha : pyReplace bearerPrefix [] ("Bearer a".toList) = "a".toList := by
    have := pyReplace_strip_leading bearerPrefix [] ("a".toList) (by decide)
    have hel : "Bearer a".toList = bearerPrefix ++ "a".toList := by decide
    rw [hel, this]
    exact pyReplace_eq_self_of_no_occurrence _ _ _ (by decide)
  have hok1 : verify_token (some "Bearer t".toList)
      [("t".toList, ⟨1, "u".toList, "user".toList, 0⟩)] =
      .ok ⟨1, "u".toList, "user".toList, 0⟩ := by
    rw [verify_token_some, if_neg (by decide), if_pos (by decide), ht]
    rfl
  have hok2 : verify_token (some "Bearer a".toList)
      [("a".toList, ⟨2, "boss".toList, "admin".toList, 0⟩)] =
      .ok ⟨2, "boss".toList, "admin".toList, 0⟩ := by
    rw [verify_token_some, if_neg (by decide), if_pos (by decide), ha]
    rfl
  exact ⟨((c4_admin_gate _ _ _ hok1).1 (by decide)).1,
         (c4_admin_gate _ _ _ hok2).2 (by decide)⟩

/-- C6: `delete_user_sessions u` removes exactly the sessions whose username
is `u` (the table invariant: tokens are unique dict keys), returns the number
removed, and leaves every other user's session in place. -/
theorem c6_delete_user_sessions_frame (u : Str) (tbl : SessionTable)
    (hnd : (tbl.map Prod.fst).Nodup) :
    (delete_user_sessions u tbl).2 =
      tbl.filter (fun p => ! decide (p.2.username = u)) ∧
    (delete_user_sessions u tbl).1 =
      (tbl.filter (fun p => decide (p.2.username = u))).length ∧
    (∀ p ∈ (delete_user_sessions u tbl).2, p ∈ tbl ∧ p.2.username ≠ u) ∧
    (∀ p ∈ tbl, p.2.username ≠ u → p ∈ (delete_user_sessions u tbl).2) := by
  have h1 : (delete_user_sessions u tbl).2 =
      tbl.filter (fun p => ! decide (p.2.username = u)) :=
    deleteTokens_filter_keys (fun p => decide (p.2.username = u)) tbl hnd
  refine ⟨h1, by simp [delete_user_sessions], ?_, ?_⟩
  · intro p hp
    rw [h1] at hp
    have hm := List.mem_filter.mp hp
    exact ⟨hm.1, by simpa using hm.2⟩
  · intro p hp hne
    rw [h1]
    exact List.mem_filter.mpr ⟨hp, by simpa using hne⟩

/-- Witness for C6, with two users each holding at least one session: both of
alice's sessions go, bob's stays, and the count is 2. -/
theorem c6_delete_user_sessions_frame_witness :
    (([("t1".toList, (⟨1, "alice".toList, "user".toList, 0⟩ : SessionData)),
       ("t2".toList, ⟨2, "bob".toList, "user".toList, 0⟩),
       ("t3".toList, ⟨1, "alice".toList, "user".toList, 5⟩)].map
         Prod.fst).Nodup) ∧
    (delete_user_sessions "alice".toList
      [("t1".toList, ⟨1, "alice".toList, "user".toList, 0⟩),
       ("t2".toList, ⟨2, "bob".toList, "user".toList, 0⟩),
       ("t3".toList, ⟨1, "alice".toList, "user".toList, 5⟩)]).1 = 2 ∧
    (delete_user_sessions "alice".toList
      [("t1".toList, ⟨1, "alice".toList, "user".toList, 0⟩),
       ("t2".toList, ⟨2, "bob".toList, "user".toList, 0⟩),
       ("t3".toList, ⟨1, "alice".toList, "user".toList, 5⟩)]).2 =
      [("t2".toList, ⟨2, "bob".toList, "user".toList, 0⟩)] := by
  have hnd : (([("t1".toList, (⟨1, "alice".toList, "user".toList, 0⟩ : SessionData)),
       ("t2".toList, ⟨2, "bob".toList, "user".toList, 0⟩),
       ("t3".toList, ⟨1, "alice".toList, "user".toList, 5⟩)].map
         Prod.fst).Nodup) := by decide
  have h := c6_delete_user_sessions_frame "alice".toList _ hnd
  refine ⟨hnd, ?_, ?_⟩
  · rw [h.2.1]
    decide
  · rw [h.1]
    decide

/-- C9: `verify_token` extracts the token with
`authorization.replace("Bearer ", "")`, which deletes every occurrence of
"Bearer ", not just the leading scheme prefix; so for a stored token that
itself contains "Bearer ", the well-formed header "Bearer " + token looks up
the fully stripped string — a different token — and the stored session is
never authenticated by its own header. -/
theorem c9_replace_deletes_all_occurrences (t : Str) (s : SessionData)
    (hi : bearerPrefix <:+: t) :
    pyReplace bearerPrefix [] (bearerPrefix ++ t) = pyReplace bearerPrefix [] t ∧
    pyReplace bearerPrefix [] t ≠ t ∧
    verify_token (some (bearerPrefix ++ t)) [(t, s)] =
      .error .invalidOrExpiredSession := by
  have hbp : bearerPrefix ≠ [] := by decide
  have h1 : pyReplace bearerPrefix [] (bearerPrefix ++ t) =
      pyReplace bearerPrefix [] t := by
    simpa using pyReplace_strip_leading bearerPrefix [] t hbp
  have h2 := pyReplace_del_ne_of_occurs bearerPrefix t hbp hi
  refine ⟨h1, h2, ?_⟩
  rw [verify_token_some, if_neg (by simp [bearerPrefix]),
    if_pos (List.isPrefixOf_iff_prefix.mpr (List.prefix_append bearerPrefix t)),
    h1]
  have hn : get_session (pyReplace bearerPrefix [] t) [(t, s)] = none := by
    unfold get_session
    rw [List.find?_eq_none.mpr]
    · rfl
    · intro x hx
      have hxe : x = (t, s) := by simpa using hx
      subst hxe
      simpa using fun he => h2 he.symm
  rw [hn]

/-- Witness for C9: the stored token "Bearer x" can never be looked up via
its own header "Bearer Bearer x", which extracts plain "x". -/
theorem c9_replace_deletes_all_occurrences_witness :
    bearerPrefix <:+: "Bearer x".toList ∧
    pyReplace bearerPrefix [] "Bearer Bearer x".toList =
      pyReplace bearerPrefix [] "Bearer x".toList ∧
    pyReplace bearerPrefix [] "Bearer x".toList ≠ "Bearer x".toList ∧
    pyReplace bearerPrefix [] "Bearer Bearer x".toList = "x".toList ∧
    verify_token (some "Bearer Bearer x".toList)
      [("Bearer x".toList, ⟨1, "u".toList, "user".toList, 0⟩)] =
      .error .invalidOrExpiredSession := by
  have hi : bearerPrefix <:+: "Bearer x".toList := by decide
  have happ : "Bearer Bearer x".toList = bearerPrefix ++ "Bearer x".toList := by
    decide
  have h := c9_replace_deletes_all_occurrences "Bearer x".toList
    ⟨1, "u".toList, "user".toList, 0⟩ hi
  have hx : pyReplace bearerPrefix [] "Bearer x".toList = "x".toList := by
    have hel : "Bearer x".toList = bearerPrefix ++ "x".toList := by decide
    rw [hel, pyReplace_strip_leading bearerPrefix [] "x".toList (by decide)]
    simpa using pyReplace_eq_self_of_no_occurrence bearerPrefix [] "x".toList
      (by decide)
  rw [happ]
  exact ⟨hi, h.1, h.2.1, by rw [h.1, hx], h.2.2⟩

/-- Stripping the scheme from a well-formed header over a clean token: when
the token itself holds no occurrence of "Bearer ", the extraction recovers
exactly the token. -/
theorem strip_bearer_clean (t : Str) (hnb : ¬ bearerPrefix <:+: t) :
    pyReplace bearerPrefix [] (bearerPrefix ++ t) = t := by
  rw [pyReplace_strip_leading bearerPrefix [] t (by decide)]
  simpa using pyReplace_eq_self_of_no_occurrence bearerPrefix [] t hnb

/-- One-step unfolding of the logout handler on a present header. -/
theorem logout_some (h : Str) (sessions : SessionTable) :
    logout (some h) sessions =
      match verify_token (some h) sessions with
      | .error e => (.error e, sessions)
      | .ok _ =>
        (.ok (), (delete_session (pyReplace bearerPrefix [] h) sessions).2) := by
  unfold logout
  cases verify_token (some h) sessions <;> rfl

/-- C5 counterexample: the well-formed header "Bearer t" parses, the first
logout succeeds, but the second logout with the very same header fails with
`invalidOrExpiredSession` instead of succeeding — the handler verifies the
token before deleting, so logout is not idempotent. -/
theorem c5_double_logout_counterexample :
    bearerPrefix.isPrefixOf "Bearer t".toList = true ∧
    (logout (some "Bearer t".toList)
      [("t".toList, ⟨1, "u".toList, "user".toList, 0⟩)]).1 = .ok () ∧
    logout (some "Bearer t".toList)
      (logout (some "Bearer t".toList)
        [("t".toList, ⟨1, "u".toList, "user".toList, 0⟩)]).2 =
      (.error .invalidOrExpiredSession, []) := by
  have ht : pyReplace bearerPrefix [] "Bearer t".toList = "t".toList := by
    rw [show "Bearer t".toList = bearerPrefix ++ "t".toList by decide]
    exact strip_bearer_clean "t".toList (by decide)
  have hok : verify_token (some "Bearer t".toList)
      [("t".toList, ⟨1, "u".toList, "user".toList, 0⟩)] =
      .ok ⟨1, "u".toList, "user".toList, 0⟩ := by
    rw [verify_token_some, if_neg (by decide), if_pos (by decide), ht]
    rfl
  have hfirst : logout (some "Bearer t".toList)
      [("t".toList, ⟨1, "u".toList, "user".toList, 0⟩)] = (.ok (), []) := by
    rw [logout_some, hok, ht]
    rfl
  refine ⟨by decide, by rw [hfirst], ?_⟩
  rw [hfirst]
  rw [logout_some, verify_token_some, if_neg (by decide), if_pos (by decide)]
  rfl

/-- C5 (amended): a logout whose header authenticates to a session succeeds
and deletes the session stored under the extracted token; but logout is NOT
idempotent: a second logout with the same well-formed header fails with
`invalidOrExpiredSession` (401), because the handler calls `verify_token`
before deleting. -/
theorem c5_logout_after_auth (h : Str) (tbl : SessionTable) (s : SessionData)
    (hok : verify_token (some h) tbl = .ok s) :
    (logout (some h) tbl).1 = .ok () ∧
    (logout (some h) tbl).2 =
      tbl.filter (fun p => decide (p.1 ≠ pyReplace bearerPrefix [] h)) ∧
    logout (some h) (logout (some h) tbl).2 =
      (.error .invalidOrExpiredSession, (logout (some h) tbl).2) := by
  have hne : h ≠ [] := by
    intro he
    subst he
    rw [verify_token_some, if_pos rfl] at hok
    cases hok
  have hsplit : bearerPrefix.isPrefixOf h = true := by
    by_cases hp : bearerPrefix.isPrefixOf h
    · exact hp
    · rw [verify_token_some, if_neg hne, if_neg (by simp [hp])] at hok
      cases hok
  have hlog : logout (some h) tbl =
      (.ok (), tbl.filter (fun p => decide (p.1 ≠ pyReplace bearerPrefix [] h))) := by
    rw [logout_some, hok]
    rfl
  have hver2 : verify_token (some h)
      (tbl.filter (fun p => decide (p.1 ≠ pyReplace bearerPrefix [] h))) =
      .error .invalidOrExpiredSession := by
    rw [verify_token_some, if_neg hne, if_pos (by simp [hsplit])]
    have hnone : get_session (pyReplace bearerPrefix [] h)
        (tbl.filter (fun p => decide (p.1 ≠ pyReplace bearerPrefix [] h))) =
        none := by
      unfold get_session
      rw [List.find?_eq_none.mpr]
      · rfl
      · intro x hxm
        have hx := (List.mem_filter.mp hxm).2
        simp only [decide_eq_true_eq] at hx ⊢
        exact hx
    rw [hnone]
  refine ⟨by rw [hlog], by rw [hlog], ?_⟩
  rw [hlog, logout_some, hver2]

/-- Witness for the amended C5, on a one-session table. -/
theorem c5_logout_after_auth_witness :
    verify_token (some "Bearer t".toList)
      [("t".toList, ⟨7, "u".toList, "user".toList, 3⟩)] =
      .ok ⟨7, "u".toList, "user".toList, 3⟩ ∧
    (logout (some "Bearer t".toList)
      [("t".toList, ⟨7, "u".toList, "user".toList, 3⟩)]).1 = .ok () ∧
    logout (some "Bearer t".toList)
      (logout (some "Bearer t".toList)
        [("t".toList, ⟨7, "u".toList, "user".toList, 3⟩)]).2 =
      (.error .invalidOrExpiredSession,
       (logout (some "Bearer t".toList)
         [("t".toList, ⟨7, "u".toList, "user".toList, 3⟩)]).2) := by
  have ht : pyReplace bearerPrefix [] "Bearer t".toList = "t".toList := by
    rw [show "Bearer t".toList = bearerPrefix ++ "t".toList by decide]
    exact strip_bearer_clean "t".toList (by decide)
  have hok : verify_token (some "Bearer t".toList)
      [("t".toList, ⟨7, "u".toList, "user".toList, 3⟩)] =
      .ok ⟨7, "u".toList, "user".toList, 3⟩ := by
    rw [verify_token_some, if_neg (by decide), if_pos (by decide), ht]
    rfl
  have h := c5_logout_after_auth "Bearer t".toList _ _ hok
  exact ⟨hok, h.1, h.2.2⟩

/-- C7: for every (user_id, username, role) and URL-safe fresh token, after
`create_session` the header "Bearer " + token authenticates back to a session
carrying exactly those fields, with a creation timestamp ≤ the current
time. -/
theorem c7_create_session_roundtrip (user_id : Nat) (username role token : Str)
    (now tnow : Nat) (tbl : SessionTable)
    (hsp : ' ' ∉ token) (hle : now ≤ tnow) :
    (create_session token now user_id username role tbl).1 = token ∧
    verify_token (some (bearerPrefix ++ token))
      (create_session token now user_id username role tbl).2 =
      .ok ⟨user_id, username, role, now⟩ ∧
    (⟨user_id, username, role, now⟩ : SessionData).created_at ≤ tnow := by
  have hnb : ¬ bearerPrefix <:+: token := fun hib =>
    hsp (hib.subset (by decide : ' ' ∈ bearerPrefix))
  have hstrip : pyReplace bearerPrefix [] (bearerPrefix ++ token) = token :=
    strip_bearer_clean token hnb
  refine ⟨rfl, ?_, hle⟩
  rw [verify_token_some, if_neg (by simp [bearerPrefix]),
    if_pos (List.isPrefixOf_iff_prefix.mpr (List.prefix_append bearerPrefix token)),
    hstrip]
  have hget : get_session token
      (create_session token now user_id username role tbl).2 =
      some ⟨user_id, username, role, now⟩ := by
    unfold create_session get_session
    rw [List.find?_cons_of_pos]
    · rfl
    · simp
  rw [hget]

/-- Witness for C7 at a concrete account and token. -/
theorem c7_create_session_roundtrip_witness :
    ' ' ∉ "tok123".toList ∧ (0 : Nat) ≤ 5 ∧
    verify_token (some (bearerPrefix ++ "tok123".toList))
      (create_session "tok123".toList 0 42 "alice".toList "admin".toList []).2 =
      .ok ⟨42, "alice".toList, "admin".toList, 0⟩ := by
  have h := c7_create_session_roundtrip 42 "alice".toList "admin".toList
    "tok123".toList 0 5 [] (by decide) (by decide)
  exact ⟨by decide, by decide, h.2.1⟩

/-- The session table with every creation timestamp rewritten (used to state
that lookup never compares timestamps). -/
def retime (g : Nat → Nat) (tbl : SessionTable) : SessionTable :=
  tbl.map (fun p => (p.1, { p.2 with created_at := g p.2.created_at }))

/-- Lookup success is invariant under arbitrary rewriting of creation
timestamps: `sessions.get(token)` makes no timestamp comparison. -/
theorem get_session_retime (tok : Str) (g : Nat → Nat) (tbl : SessionTable) :
    (get_session tok (retime g tbl)).isSome = (get_session tok tbl).isSome := by
  induction tbl with
  | nil => rfl
  | cons a l ih =>
    by_cases hk : a.1 = tok
    · unfold get_session retime
      rw [List.map_cons, List.find?_cons_of_pos _ (by simp [hk]),
        List.find?_cons_of_pos _ (by simp [hk])]
      rfl
    · unfold get_session retime at ih ⊢
      rw [List.map_cons, List.find?_cons_of_neg _ (by simp [hk]),
        List.find?_cons_of_neg _ (by simp [hk])]
      exact ih

/-- C8: a token has exactly the two states absent/active and never expires
passively.  (a) a lookup has no side effect on the table; (b) lookup success
performs no timestamp comparison (it is invariant under rewriting every
creation timestamp); (c) an active token becomes absent only through
`delete_session` on that token, `delete_user_sessions` on its username, or an
explicit sweep whose age condition the session meets; (d) the sweep removes
exactly the sessions strictly older than the configured 24-hour age, leaving
the others in place. -/
theorem c8_token_lifecycle (tbl : SessionTable)
    (hnd : (tbl.map Prod.fst).Nodup) :
    (∀ tok : Str, applyOp (.get tok) tbl = tbl) ∧
    (∀ (tok : Str) (g : Nat → Nat),
      (get_session tok (retime g tbl)).isSome = (get_session tok tbl).isSome) ∧
    (∀ (tok : Str) (s : SessionData) (op : SessionOp),
      get_session tok tbl = some s →
      get_session tok (applyOp op tbl) = none →
      op = .delete tok ∨ op = .deleteUser s.username ∨
      (∃ now, op = .sweep now ∧
        now - s.created_at > SESSION_TIMEOUT_HOURS * 3600)) ∧
    (∀ now : Nat,
      (cleanup_old_sessions now tbl).2 =
        tbl.filter
          (fun p => ! decide (now - p.2.created_at > SESSION_TIMEOUT_HOURS * 3600)) ∧
      (cleanup_old_sessions now tbl).1 =
        (tbl.filter
          (fun p => decide (now - p.2.created_at > SESSION_TIMEOUT_HOURS * 3600))).length) := by
  refine ⟨fun _ => rfl, fun tok g => get_session_retime tok g tbl, ?_, ?_⟩
  · intro tok s op hs hnone
    cases op with
    | create tok' now' uid u r =>
      exfalso
      by_cases hk : tok' = tok
      · unfold applyOp create_session get_session at hnone
        rw [List.find?_cons_of_pos _ (by simp [hk])] at hnone
        cases hnone
      · unfold applyOp create_session get_session at hnone
        rw [List.find?_cons_of_neg _ (by simp [hk])] at hnone
        have := get_session_filter (fun p => decide (p.1 ≠ tok')) tok s tbl hnd hs
        have hq : (fun p => decide (p.1 ≠ tok')) ((tok, s) : Str × SessionData) = true := by
          simp only [decide_eq_true_eq]
          exact fun he => hk he.symm
        rw [if_pos hq] at this
        unfold get_session at this
        rw [hnone] at this
        cases this
    | get tok' =>
      exfalso
      rw [show applyOp (.get tok') tbl = tbl from rfl, hs] at hnone
      cases hnone
    | delete tok' =>
      left
      have := get_session_filter (fun p => decide (p.1 ≠ tok')) tok s tbl hnd hs
      rw [show applyOp (.delete tok') tbl =
        tbl.filter (fun p => decide (p.1 ≠ tok')) from rfl, this] at hnone
      by_cases hk : tok = tok'
      · rw [hk]
      · rw [if_pos (by simp [hk])] at hnone
        cases hnone
    | deleteUser u =>
      right; left
      have happ : applyOp (.deleteUser u) tbl =
          tbl.filter (fun p => ! decide (p.2.username = u)) :=
        deleteTokens_filter_keys (fun p => decide (p.2.username = u)) tbl hnd
      have := get_session_filter
        (fun p => ! decide (p.2.username = u)) tok s tbl hnd hs
      rw [happ, this] at hnone
      by_cases hu : s.username = u
      · rw [hu]
      · rw [if_pos (by simp [hu])] at hnone
        cases hnone
    | sweep now =>
      right; right
      refine ⟨now, rfl, ?_⟩
      have happ : applyOp (.sweep now) tbl =
          tbl.filter (fun p =>
            ! decide (now - p.2.created_at > SESSION_TIMEOUT_HOURS * 3600)) :=
        deleteTokens_filter_keys _ tbl hnd
      have := get_session_filter
        (fun p => ! decide (now - p.2.created_at > SESSION_TIMEOUT_HOURS * 3600))
        tok s tbl hnd hs
      rw [happ, this] at hnone
      by_cases hage : now - s.created_at > SESSION_TIMEOUT_HOURS * 3600
      · exact hage
      · rw [if_pos (by simp [hage])] at hnone
        cases hnone
  · intro now
    exact ⟨deleteTokens_filter_keys _ tbl hnd, by simp [cleanup_old_sessions]⟩

/-- Witness for C8 on a two-session table: lookups are pure and
timestamp-blind, deleting token "t1" is the only way it went absent, and the
sweep at time 90000 removes exactly the session older than 24 hours. -/
theorem c8_token_lifecycle_witness :
    (([("t1".toList, (⟨1, "a".toList, "user".toList, 0⟩ : SessionData)),
       ("t2".toList, ⟨2, "b".toList, "user".toList, 80000⟩)].map
         Prod.fst).Nodup) ∧
    applyOp (.get "t1".toList)
      [("t1".toList, ⟨1, "a".toList, "user".toList, 0⟩),
       ("t2".toList, ⟨2, "b".toList, "user".toList, 80000⟩)] =
      [("t1".toList, ⟨1, "a".toList, "user".toList, 0⟩),
       ("t2".toList, ⟨2, "b".toList, "user".toList, 80000⟩)] ∧
    ((.delete "t1".toList : SessionOp) = .delete "t1".toList ∨
     (.delete "t1".toList : SessionOp) =
       .deleteUser ("a".toList) ∨
     (∃ now, (.delete "t1".toList : SessionOp) = .sweep now ∧
       now - 0 > SESSION_TIMEOUT_HOURS * 3600)) ∧
    (cleanup_old_sessions 90000
      [("t1".toList, ⟨1, "a".toList, "user".toList, 0⟩),
       ("t2".toList, ⟨2, "b".toList, "user".toList, 80000⟩)]).2 =
      [("t2".toList, ⟨2, "b".toList, "user".toList, 80000⟩)] := by
  have hnd : (([("t1".toList, (⟨1, "a".toList, "user".toList, 0⟩ : SessionData)),
       ("t2".toList, ⟨2, "b".toList, "user".toList, 80000⟩)].map
         Prod.fst).Nodup) := by decide
  have h := c8_token_lifecycle _ hnd
  refine ⟨hnd, h.1 "t1".toList, ?_, ?_⟩
  · exact h.2.2.1 "t1".toList ⟨1, "a".toList, "user".toList, 0⟩
      (.delete "t1".toList) (by decide) (by decide)
  · exact ((h.2.2.2 90000).1).trans (by decide)

/-!
## Lemmas about the trade table
-/

/-- A row that a lookup finds makes the `UPDATE`/`DELETE` rowcount positive. -/
theorem any_key_of_get (st : DbState) (id : Nat) (old : TradeRow)
    (h : get_trade_entry_by_id st id = some old) :
    st.trades.any (fun p => decide (p.1 = id)) = true := by
  unfold get_trade_entry_by_id at h
  cases hf : st.trades.find? (fun p => decide (p.1 = id)) with
  | none => rw [hf] at h; cases h
  | some r =>
    have hp := List.find?_some hf
    exact List.any_eq_true.mpr ⟨r, List.mem_of_find?_eq_some hf, hp⟩

/-- After updating the row under a key that a lookup found, the re-read under
that key returns the new row. -/
theorem find_map_update (l : List (Nat × TradeRow)) (id : Nat)
    (row old : TradeRow)
    (h : (l.find? (fun p => decide (p.1 = id))).map Prod.snd = some old) :
    ((l.map (fun p => if p.1 = id then (p.1, row) else p)).find?
      (fun p => decide (p.1 = id))).map Prod.snd = some row := by
  induction l with
  | nil => simp at h
  | cons a l ih =>
    by_cases hk : a.1 = id
    · rw [List.map_cons, List.find?_cons_of_pos _ (by simp [hk])]
      simp [hk]
    · rw [List.find?_cons_of_neg _ (by simp [hk])] at h
      rw [List.map_cons, List.find?_cons_of_neg _ (by simp [hk])]
      exact ih h

/-- `DbState`-level form of `find_map_update`. -/
theorem get_trade_after_update (st : DbState) (id : Nat) (entry : TradeRow)
    (u : Str) (old : TradeRow)
    (h : get_trade_entry_by_id st id = some old) :
    get_trade_entry_by_id (crud_update_trade_entry st id entry u).2 id =
      some { entry with username := u } :=
  find_map_update st.trades id { entry with username := u } old h

/-- C1: a successful authenticated update of an existing trade entry commits,
in one transaction with the mutation, exactly two audit entries — a
`before` snapshot of the row as read prior to the mutation and an `after`
snapshot of the row re-read after it; a successful delete commits exactly one
`deleted` snapshot of the row read prior to the deletion, together with the
deletion. -/
theorem c1_audit_trail (authorization : Option Str) (sessions : SessionTable)
    (entry_id : Nat) (entry : TradeRow) (now : Nat) (st : DbState)
    (sess : SessionData) (old : TradeRow)
    (hok : verify_token authorization sessions = .ok sess)
    (hold : get_trade_entry_by_id st entry_id = some old) :
    update_trade_entry_handler authorization sessions entry_id entry now
      (fun _ => true) st =
      (.ok { entry with username := sess.username },
       { trades := st.trades.map (fun p =>
           if p.1 = entry_id then
             (p.1, { entry with username := sess.username })
           else p),
         logs := st.logs ++
           [⟨entry_id, "UPDATE".toList, "before".toList, some old,
             sess.username, now⟩,
            ⟨entry_id, "UPDATE".toList, "after".toList,
             some { entry with username := sess.username },
             sess.username, now⟩] }) ∧
    delete_trade_entry_handler authorization sessions entry_id now
      (fun _ => true) st =
      (.ok entry_id,
       { trades := st.trades.filter (fun p => decide (p.1 ≠ entry_id)),
         logs := st.logs ++
           [⟨entry_id, "DELETE".toList, "deleted".toList, some old,
             sess.username, now⟩] }) := by
  have hany : st.trades.any (fun p => decide (p.1 = entry_id)) = true :=
    any_key_of_get st entry_id old hold
  have hre : get_trade_entry_by_id
      (crud_update_trade_entry
        (create_log_entry st entry_id "UPDATE".toList "before".toList
          (some old) sess.username now)
        entry_id entry sess.username).2 entry_id =
      some { entry with username := sess.username } :=
    get_trade_after_update _ entry_id entry sess.username old hold
  simp only [crud_update_trade_entry, create_log_entry] at hre
  constructor
  · simp only [update_trade_entry_handler, hok, hold, crud_update_trade_entry,
      create_log_entry, hany, Bool.true_eq_false, if_false,
      reduceCtorEq, ite_false]
    rw [hre]
    simp [List.append_assoc]
  · simp only [delete_trade_entry_handler, hok, hold, crud_delete_trade_entry,
      create_log_entry, hany, Bool.true_eq_false, if_false,
      reduceCtorEq, ite_false]

/-- A sample trade row for the witnesses. -/
def rowA : TradeRow :=
  ⟨"w".toList, none, none, none, none, none, none, none, none, none,
   none, none, none, none, none, none, none, none, none, none⟩

/-- A second sample row, used as an update payload. -/
def rowB : TradeRow :=
  ⟨"x".toList, some "2024-01-02".toList, none, none, none, none, none, none,
   none, none, none, none, none, none, none, none, none, none, none, none⟩

/-- Witness for C1 on a one-row table: the update appends exactly the
`before` and `after` entries, the delete appends exactly the `deleted`
entry and removes the row. -/
theorem c1_audit_trail_witness :
    verify_token (some "Bearer t".toList)
      [("t".toList, ⟨1, "u".toList, "user".toList, 0⟩)] =
      .ok ⟨1, "u".toList, "user".toList, 0⟩ ∧
    get_trade_entry_by_id ⟨[(5, rowA)], []⟩ 5 = some rowA ∧
    (update_trade_entry_handler (some "Bearer t".toList)
      [("t".toList, ⟨1, "u".toList, "user".toList, 0⟩)] 5 rowB 9
      (fun _ => true) ⟨[(5, rowA)], []⟩).2.logs =
      [⟨5, "UPDATE".toList, "before".toList, some rowA, "u".toList, 9⟩,
       ⟨5, "UPDATE".toList, "after".toList,
        some { rowB with username := "u".toList }, "u".toList, 9⟩] ∧
    (delete_trade_entry_handler (some "Bearer t".toList)
      [("t".toList, ⟨1, "u".toList, "user".toList, 0⟩)] 5 9
      (fun _ => true) ⟨[(5, rowA)], []⟩).2 =
      ⟨[], [⟨5, "DELETE".toList, "deleted".toList, some rowA, "u".toList, 9⟩]⟩ := by
  have ht : pyReplace bearerPrefix [] "Bearer t".toList = "t".toList := by
    rw [show "Bearer t".toList = bearerPrefix ++ "t".toList by decide]
    exact strip_bearer_clean "t".toList (by decide)
  have hok : verify_token (some "Bearer t".toList)
      [("t".toList, ⟨1, "u".toList, "user".toList, 0⟩)] =
      .ok ⟨1, "u".toList, "user".toList, 0⟩ := by
    rw [verify_token_some, if_neg (by decide), if_pos (by decide), ht]
    rfl
  have hold : get_trade_entry_by_id ⟨[(5, rowA)], []⟩ 5 = some rowA := rfl
  have h := c1_audit_trail (some "Bearer t".toList) _ 5 rowB 9
    ⟨[(5, rowA)], []⟩ _ _ hok hold
  refine ⟨hok, hold, ?_, ?_⟩
  · rw [h.1]
    decide
  · rw [h.2]
    decide

/-- C2: if any storage write inside the audited update or delete fails, the
handler reports a server error (500) and the visible state is exactly the
initial one — the trade row keeps its pre-operation value and no audit entry
from the failed operation is persisted. -/
theorem c2_storage_failure_rollback (authorization : Option Str)
    (sessions : SessionTable) (entry_id : Nat) (entry : TradeRow) (now : Nat)
    (st : DbState) (sess : SessionData) (old : TradeRow)
    (wf : WriteStep → Bool)
    (hok : verify_token authorization sessions = .ok sess)
    (hold : get_trade_entry_by_id st entry_id = some old) :
    (¬ (wf .logBefore = true ∧ wf .updateRow = true ∧ wf .logAfter = true) →
      update_trade_entry_handler authorization sessions entry_id entry now
        wf st = (.error .serverError, st)) ∧
    (¬ (wf .logDeleted = true ∧ wf .deleteRow = true) →
      delete_trade_entry_handler authorization sessions entry_id now wf st =
        (.error .serverError, st)) ∧
    statusCode .serverError = 500 := by
  have hany : st.trades.any (fun p => decide (p.1 = entry_id)) = true :=
    any_key_of_get st entry_id old hold
  refine ⟨?_, ?_, rfl⟩
  · intro hfail
    cases hb : wf .logBefore with
    | false =>
      simp [update_trade_entry_handler, hok, hold, hb]
    | true =>
      cases hu : wf .updateRow with
      | false =>
        simp [update_trade_entry_handler, hok, hold, hb, hu]
      | true =>
        cases ha : wf .logAfter with
        | false =>
          simp [update_trade_entry_handler, hok, hold, hb, hu, ha,
            crud_update_trade_entry, create_log_entry, hany]
        | true => exact absurd ⟨hb, hu, ha⟩ hfail
  · intro hfail
    cases hd : wf .logDeleted with
    | false =>
      simp [delete_trade_entry_handler, hok, hold, hd]
    | true =>
      cases hr : wf .deleteRow with
      | false =>
        simp [delete_trade_entry_handler, hok, hold, hd, hr]
      | true => exact absurd ⟨hd, hr⟩ hfail

/-- Witness for C2: with every storage write failing, both handlers answer
500 and leave the initial state untouched. -/
theorem c2_storage_failure_rollback_witness :
    verify_token (some "Bearer t".toList)
      [("t".toList, ⟨1, "u".toList, "user".toList, 0⟩)] =
      .ok ⟨1, "u".toList, "user".toList, 0⟩ ∧
    get_trade_entry_by_id ⟨[(5, rowA)], []⟩ 5 = some rowA ∧
    update_trade_entry_handler (some "Bearer t".toList)
      [("t".toList, ⟨1, "u".toList, "user".toList, 0⟩)] 5 rowB 9
      (fun _ => false) ⟨[(5, rowA)], []⟩ =
      (.error .serverError, ⟨[(5, rowA)], []⟩) ∧
    delete_trade_entry_handler (some "Bearer t".toList)
      [("t".toList, ⟨1, "u".toList, "user".toList, 0⟩)] 5 9
      (fun _ => false) ⟨[(5, rowA)], []⟩ =
      (.error .serverError, ⟨[(5, rowA)], []⟩) := by
  have ht : pyReplace bearerPrefix [] "Bearer t".toList = "t".toList := by
    rw [show "Bearer t".toList = bearerPrefix ++ "t".toList by decide]
    exact strip_bearer_clean "t".toList (by decide)
  have hok : verify_token (some "Bearer t".toList)
      [("t".toList, ⟨1, "u".toList, "user".toList, 0⟩)] =
      .ok ⟨1, "u".toList, "user".toList, 0⟩ := by
    rw [verify_token_some, if_neg (by decide), if_pos (by decide), ht]
    rfl
  have hold : get_trade_entry_by_id ⟨[(5, rowA)], []⟩ 5 = some rowA := rfl
  have h := c2_storage_failure_rollback (some "Bearer t".toList) _ 5 rowB 9
    ⟨[(5, rowA)], []⟩ _ _ (fun _ => false) hok hold
  exact ⟨hok, hold, h.1 (by simp), h.2.1 (by simp)⟩

/-- C10: in the admin delete-user endpoint the target's in-memory sessions
are deleted before the database row deletion and outside the transaction; if
the row deletion fails, the handler answers 500 and the users table is rolled
back, yet the target's sessions remain revoked. -/
theorem c10_sessions_revoked_despite_rollback (authorization : Option Str)
    (sessions : SessionTable) (user_id : Nat) (users : UserTable)
    (adminSess : SessionData) (target : UserRow)
    (hok : verify_admin authorization sessions = .ok adminSess)
    (htgt : get_user_by_id users user_id = some target)
    (hrole : target.role ≠ "admin".toList) :
    delete_user_handler authorization sessions user_id true users =
      (.error .serverError,
       (delete_user_sessions target.username sessions).2, users) ∧
    statusCode .serverError = 500 := by
  refine ⟨?_, rfl⟩
  simp only [delete_user_handler, hok, htgt, crud_delete_user, if_neg hrole,
    if_true, if_false, Bool.false_eq_true, ite_false, ite_true]

/-- Witness for C10: bob's session is gone although the row deletion failed
and the users table kept its row. -/
theorem c10_sessions_revoked_despite_rollback_witness :
    verify_admin (some "Bearer a".toList)
      [("a".toList, ⟨1, "root".toList, "admin".toList, 0⟩),
       ("b".toList, ⟨2, "bob".toList, "user".toList, 0⟩)] =
      .ok ⟨1, "root".toList, "admin".toList, 0⟩ ∧
    get_user_by_id [(2, ⟨"bob".toList, "user".toList⟩)] 2 =
      some ⟨"bob".toList, "user".toList⟩ ∧
    ("user".toList : Str) ≠ "admin".toList ∧
    delete_user_handler (some "Bearer a".toList)
      [("a".toList, ⟨1, "root".toList, "admin".toList, 0⟩),
       ("b".toList, ⟨2, "bob".toList, "user".toList, 0⟩)] 2 true
      [(2, ⟨"bob".toList, "user".toList⟩)] =
      (.error .serverError,
       [("a".toList, ⟨1, "root".toList, "admin".toList, 0⟩)],
       [(2, ⟨"bob".toList, "user".toList⟩)]) := by
  have ha : pyReplace bearerPrefix [] "Bearer a".toList = "a".toList := by
    rw [show "Bearer a".toList = bearerPrefix ++ "a".toList by decide]
    exact strip_bearer_clean "a".toList (by decide)
  have hokt : verify_token (some "Bearer a".toList)
      [("a".toList, ⟨1, "root".toList, "admin".toList, 0⟩),
       ("b".toList, ⟨2, "bob".toList, "user".toList, 0⟩)] =
      .ok ⟨1, "root".toList, "admin".toList, 0⟩ := by
    rw [verify_token_some, if_neg (by decide), if_pos (by decide), ha]
    rfl
  have hok : verify_admin (some "Bearer a".toList)
      [("a".toList, ⟨1, "root".toList, "admin".toList, 0⟩),
       ("b".toList, ⟨2, "bob".toList, "user".toList, 0⟩)] =
      .ok ⟨1, "root".toList, "admin".toList, 0⟩ := by
    unfold verify_admin
    rw [hokt]
    rfl
  have htgt : get_user_by_id [(2, (⟨"bob".toList, "user".toList⟩ : UserRow))] 2 =
      some ⟨"bob".toList, "user".toList⟩ := rfl
  have h := c10_sessions_revoked_despite_rollback (some "Bearer a".toList)
    _ 2 _ _ _ hok htgt (by decide)
  have h2 : (delete_user_sessions "bob".toList
      [("a".toList, (⟨1, "root".toList, "admin".toList, 0⟩ : SessionData)),
       ("b".toList, ⟨2, "bob".toList, "user".toList, 0⟩)]).2 =
      [("a".toList, ⟨1, "root".toList, "admin".toList, 0⟩)] := by decide
  refine ⟨hok, htgt, by decide, ?_⟩
  rw [h.1, h2]
